import Mathlib

/-!
Shallow embedding of the dean-bot backtesting engine (src/backtest.py).

The engine consumes a dataframe of candles with indicator columns
(`calculate_indicators` output) and runs `run_backtest`, a single pass over
candle indices 1..len-1 that opens, ages and closes simulated positions.
Prices and balances are modelled as exact rationals (ℚ); a pandas NaN cell
is modelled as `Option.none`.  Python's `round(x, 4)` is modelled as
round-half-to-even on the exact rational, and `float('inf')` for the profit
factor as a dedicated sentinel constructor.
-/

namespace DeanBot

/-- One row of the indicator-augmented dataframe handed to `run_backtest`:
OHLCV columns plus the indicator columns added by `calculate_indicators`.
Indicator cells are `Option ℚ`; `none` models a pandas NaN. -/
structure Row where
  timestamp : Int
  open_ : ℚ
  high : ℚ
  low : ℚ
  close : ℚ
  volume : ℚ
  rsi : Option ℚ
  macd : Option ℚ
  signal : Option ℚ
  hist : Option ℚ
  atr : Option ℚ
  volume_sma : Option ℚ
deriving DecidableEq, Repr

/-- The module-level strategy parameters of backtest.py (lines 24-41),
gathered into one record so runs can be compared across configurations. -/
structure Config where
  rsi_oversold : ℚ
  min_hist_threshold : ℚ
  fee_percent : ℚ
  slippage_factor : ℚ
  atr_sl_multiplier : ℚ
  atr_tp_multiplier : ℚ
  risk_per_trade : ℚ
  min_order_size : ℚ
  max_hold_candles : ℕ
  leverage : ℚ
  initial_balance : ℚ
  min_atr : ℚ
  max_positions : ℕ
deriving DecidableEq, Repr

/-- The constant parameter values of backtest.py:
rsi_oversold = 12, min_hist_threshold = -5.0, fee_percent = 0.075,
slippage_factor = 0.999, atr_sl_multiplier = 0.25, atr_tp_multiplier = 5.0,
risk_per_trade = 0.05, min_order_size = 0.0005, max_hold_candles = 60,
leverage = 2, initial_balance = 10.0, min_atr = 0.01, max_positions = 3. -/
def defaultParams : Config where
  rsi_oversold := 12
  min_hist_threshold := -5
  fee_percent := 3/40
  slippage_factor := 999/1000
  atr_sl_multiplier := 1/4
  atr_tp_multiplier := 5
  risk_per_trade := 1/20
  min_order_size := 1/2000
  max_hold_candles := 60
  leverage := 2
  initial_balance := 10
  min_atr := 1/100
  max_positions := 3

/-- An open position (the dict built at backtest.py line 240):
`position_candles` is the per-step hold counter. -/
structure Position where
  entry_price : ℚ
  size : ℚ
  stop_loss : ℚ
  take_profit : ℚ
  entry_index : ℕ
  entry_time : Int
  macd_at_entry : ℚ
  signal_at_entry : ℚ
  hist_at_entry : ℚ
  atr_at_entry : ℚ
  position_candles : ℕ
deriving DecidableEq, Repr

/-- The three exit reasons ('Stop Loss' / 'Take Profit' / 'Time Exit'). -/
inductive ExitType where
  | StopLoss : ExitType
  | TakeProfit : ExitType
  | TimeExit : ExitType
deriving DecidableEq, Repr, Inhabited

/-- A row of trade_history (the dict built at backtest.py line 316).
`win_loss = true` models the string 'Win'.  The last three fields are ghost
fields not present in the CSV row: the closing candle's index, the
position's entry index and the hold counter's value at close, recorded so
that theorems can speak about them. -/
structure TradeEntry where
  timestamp : Int
  entry_price : ℚ
  exit_price : ℚ
  size : ℚ
  profit_loss : ℚ
  win_loss : Bool
  usdt_balance : ℚ
  sol_balance : ℚ
  exit_type : ExitType
  sl_distance : ℚ
  tp_distance : ℚ
  macd_at_entry : ℚ
  signal_at_entry : ℚ
  hist_at_entry : ℚ
  atr_at_entry : ℚ
  candles_held : ℕ
  entry_index : ℕ
  close_index : ℕ
  position_candles_at_close : ℕ
deriving DecidableEq, Repr, Inhabited

/-- The mutable run state of `run_backtest` (backtest.py lines 118-126):
balances, open positions, the trade log and the counters.  `partialCount`
models the `partial_condition_count` counter (capped at 1000 emissions of a
partial-condition line). -/
structure BTState where
  balance : ℚ
  positions : List Position
  trade_history : List TradeEntry
  usdt_balance : ℚ
  sol_balance : ℚ
  trades : ℕ
  wins : ℕ
  rsi_below_threshold_count : ℕ
  partialCount : ℕ
deriving DecidableEq, Repr

/-- The state at the top of `run_backtest`. -/
def initState (cfg : Config) : BTState where
  balance := cfg.initial_balance
  positions := []
  trade_history := []
  usdt_balance := cfg.initial_balance
  sol_balance := 0
  trades := 0
  wins := 0
  rsi_below_threshold_count := 0
  partialCount := 0

/-- Round-half-to-even to an integer, the tie-breaking rule of Python's
built-in `round` (idealised over exact rationals). -/
def roundHalfEven (x : ℚ) : ℤ :=
  let f : ℤ := ⌊x⌋
  let r : ℚ := x - (f : ℚ)
  if r < 1/2 then f
  else if 1/2 < r then f + 1
  else if f % 2 = 0 then f else f + 1

/-- Python's `round(x, 4)` on exact rationals. -/
def round4 (x : ℚ) : ℚ := (roundHalfEven (x * 10000) : ℚ) / 10000

/-- `risk_amount = balance * risk_per_trade` (backtest.py line 206). -/
def riskAmount (cfg : Config) (balance : ℚ) : ℚ := balance * cfg.risk_per_trade

/-- The raw size `(risk_amount / atr_sl_multiplier) / close` before flooring
and rounding (backtest.py lines 208-209). -/
def rawSize (cfg : Config) (balance close : ℚ) : ℚ :=
  (riskAmount cfg balance / cfg.atr_sl_multiplier) / close

/-- The executed size: the raw size floored at `min_order_size`, then rounded
to 4 decimal places (backtest.py lines 210-211). -/
def tradeSize (cfg : Config) (balance close : ℚ) : ℚ :=
  round4 (max (rawSize cfg balance close) cfg.min_order_size)

/-- `position_size_usdt = size * close` after rounding (backtest.py line 212). -/
def positionSizeUsdt (cfg : Config) (balance close : ℚ) : ℚ :=
  tradeSize cfg balance close * close

/-- The rejection test of backtest.py line 224: required capital above the
cash balance, or rounded size times price below the minimum notional. -/
def entryRejected (cfg : Config) (balance close : ℚ) : Prop :=
  positionSizeUsdt cfg balance close > balance ∨
    tradeSize cfg balance close * close < cfg.min_order_size * close

instance (cfg : Config) (balance close : ℚ) : Decidable (entryRejected cfg balance close) := by
  unfold entryRejected; infer_instance

/-- True when all six indicator cells of the row are non-NaN
(the `pd.isna(...).any()` check at backtest.py line 142, negated). -/
def indicatorsOk (row : Row) : Bool :=
  row.rsi.isSome && row.macd.isSome && row.signal.isSome &&
    row.hist.isSome && row.atr.isSome && row.volume_sma.isSome

/-- The `rsi_below_threshold_count` bump at backtest.py line 155. -/
def rsiBump (cfg : Config) (row : Row) (st : BTState) : BTState :=
  if row.rsi.getD 0 < cfg.rsi_oversold then
    { st with rsi_below_threshold_count := st.rsi_below_threshold_count + 1 }
  else st

/-- The three entry conditions of backtest.py lines 168-172: RSI below the
oversold threshold, histogram above the minimum threshold, volume above its
rolling average. -/
def entrySignal (cfg : Config) (row : Row) : Prop :=
  row.rsi.getD 0 < cfg.rsi_oversold ∧
    cfg.min_hist_threshold < row.hist.getD 0 ∧
    row.volume_sma.getD 0 < row.volume

instance (cfg : Config) (row : Row) : Decidable (entrySignal cfg row) := by
  unfold entrySignal; infer_instance

/-- The partial-condition bookkeeping of backtest.py lines 180-195: when the
RSI condition alone holds and fewer than 1000 lines were emitted, one more
line is emitted and the counter advances; nothing else changes. -/
def partialBump (cfg : Config) (row : Row) (st : BTState) : BTState :=
  if row.rsi.getD 0 < cfg.rsi_oversold ∧ st.partialCount < 1000 then
    { st with partialCount := st.partialCount + 1 }
  else st

/-- Opening a position on an accepted entry signal (backtest.py lines
231-256): build the position dict, debit the cash balance by the required
capital plus the entry fee, and credit the asset balance by the size. -/
def openPosition (cfg : Config) (i : ℕ) (row : Row) (st : BTState) : BTState :=
  let atr := row.atr.getD 0
  let size := tradeSize cfg st.balance row.close
  let psu := positionSizeUsdt cfg st.balance row.close
  let pos : Position :=
    { entry_price := row.close * cfg.slippage_factor * (1 + cfg.fee_percent / 100)
      size := size
      stop_loss := row.close - atr * cfg.atr_sl_multiplier
      take_profit := row.close + atr * cfg.atr_tp_multiplier
      entry_index := i
      entry_time := row.timestamp
      macd_at_entry := row.macd.getD 0
      signal_at_entry := row.signal.getD 0
      hist_at_entry := row.hist.getD 0
      atr_at_entry := atr
      position_candles := 0 }
  { st with
      positions := st.positions ++ [pos]
      balance := st.balance - psu * (1 + cfg.fee_percent / 100)
      usdt_balance := st.balance - psu * (1 + cfg.fee_percent / 100)
      sol_balance := st.sol_balance + size }

/-- Entry evaluation (backtest.py lines 167-263): guarded by the open-position
cap, it does the partial-condition bookkeeping, checks the three entry
conditions, sizes the trade and either opens a position or rejects.  The
returned Bool is true exactly when the `continue` at line 229 fires (entry
signal present but the trade was rejected), which skips the rest of the
loop body for this candle. -/
def stepEntry (cfg : Config) (i : ℕ) (row : Row) (st : BTState) : BTState × Bool :=
  if st.positions.length < cfg.max_positions then
    if entrySignal cfg row then
      if entryRejected cfg (partialBump cfg row st).balance row.close then
        (partialBump cfg row st, true)
      else
        (openPosition cfg i row (partialBump cfg row st), false)
    else (partialBump cfg row st, false)
  else (st, false)

/-- The exit trigger price and reason for one position on one candle,
after the per-step counter increment (backtest.py lines 281-306): stop-loss
before take-profit before time exit, at most one per step. -/
def exitCheck (cfg : Config) (row : Row) (pos : Position) : Option (ℚ × ExitType) :=
  if row.low ≤ pos.stop_loss then
    some (pos.stop_loss * cfg.slippage_factor * (1 - cfg.fee_percent / 100), ExitType.StopLoss)
  else if pos.take_profit ≤ row.high then
    some (pos.take_profit * cfg.slippage_factor * (1 - cfg.fee_percent / 100), ExitType.TakeProfit)
  else if cfg.max_hold_candles ≤ pos.position_candles then
    some (row.close * cfg.slippage_factor * (1 - cfg.fee_percent / 100), ExitType.TimeExit)
  else none

/-- The trade record appended on a close (the dict built at backtest.py line
316): `candles_held` is the raw index distance `i - entry_index` (line 312),
and the recorded balances are those right after this close's updates. -/
def mkTradeEntry (cfg : Config) (i : ℕ) (row : Row) (acc : BTState) (pos : Position)
    (exit_price : ℚ) (exit_type : ExitType) : TradeEntry :=
  { timestamp := row.timestamp
    entry_price := pos.entry_price
    exit_price := exit_price
    size := pos.size
    profit_loss := (exit_price - pos.entry_price) * pos.size * cfg.leverage
    win_loss := decide (0 < (exit_price - pos.entry_price) * pos.size * cfg.leverage)
    usdt_balance := acc.balance + pos.size * exit_price * (1 - cfg.fee_percent / 100)
    sol_balance := acc.sol_balance - pos.size
    exit_type := exit_type
    sl_distance := pos.entry_price - pos.stop_loss
    tp_distance := pos.take_profit - pos.entry_price
    macd_at_entry := pos.macd_at_entry
    signal_at_entry := pos.signal_at_entry
    hist_at_entry := pos.hist_at_entry
    atr_at_entry := pos.atr_at_entry
    candles_held := i - pos.entry_index
    entry_index := pos.entry_index
    close_index := i
    position_candles_at_close := pos.position_candles }

/-- Closing bookkeeping for one position (backtest.py lines 308-341):
balance and sol_balance updates, the win/trade counters and the appended
trade record. -/
def closeTrade (cfg : Config) (i : ℕ) (row : Row) (acc : BTState) (pos : Position)
    (exit_price : ℚ) (exit_type : ExitType) : BTState :=
  { acc with
      balance := acc.balance + pos.size * exit_price * (1 - cfg.fee_percent / 100)
      usdt_balance := acc.balance + pos.size * exit_price * (1 - cfg.fee_percent / 100)
      sol_balance := acc.sol_balance - pos.size
      trades := acc.trades + 1
      wins := if 0 < (exit_price - pos.entry_price) * pos.size * cfg.leverage then
                acc.wins + 1
              else acc.wins
      trade_history := acc.trade_history ++ [mkTradeEntry cfg i row acc pos exit_price exit_type] }

/-- One position's per-step hold-counter increment (the in-place
`pos['position_candles'] += 1` at backtest.py line 275). -/
def incPos (p : Position) : Position := { p with position_candles := p.position_candles + 1 }

/-- One iteration of the exit loop body for one position: increment the hold
counter, then either keep the (aged) position or close it. -/
def exitStepOne (cfg : Config) (i : ℕ) (row : Row) (acc : BTState) (pos : Position) : BTState :=
  match exitCheck cfg row (incPos pos) with
  | none => { acc with positions := acc.positions ++ [incPos pos] }
  | some pe => closeTrade cfg i row acc (incPos pos) pe.1 pe.2

/-- The exit loop (backtest.py lines 272-345) folded over the open positions
in insertion order; the accumulator starts with the position list emptied,
kept positions are re-appended in order and closed ones feed `closeTrade`. -/
def exitFold (cfg : Config) (i : ℕ) (row : Row) : List Position → BTState → BTState
  | [], acc => acc
  | pos :: rest, acc => exitFold cfg i row rest (exitStepOne cfg i row acc pos)

/-- Exit evaluation for all open positions on one candle. -/
def stepExits (cfg : Config) (i : ℕ) (row : Row) (st : BTState) : BTState :=
  exitFold cfg i row st.positions { st with positions := [] }

/-- The end-of-step recomputation of sol_balance (backtest.py lines 347-351):
the sum of sizes of the remaining open positions, 0 when none remain. -/
def recomputeSol (st : BTState) : BTState :=
  if st.positions.isEmpty then { st with sol_balance := 0 }
  else { st with sol_balance := (st.positions.map (fun p => p.size)).sum }

/-- The whole loop body for candle `i` (backtest.py lines 132-351): skip on
any NaN indicator, skip on ATR below the floor, bump the RSI counter, run
entry evaluation, and — unless the rejected-entry `continue` fired — run exit
evaluation for every open position and recompute sol_balance. -/
def processCandle (cfg : Config) (i : ℕ) (row : Row) (st : BTState) : BTState :=
  if indicatorsOk row then
    if row.atr.getD 0 < cfg.min_atr then st
    else
      if (stepEntry cfg i row (rsiBump cfg row st)).2 then
        (stepEntry cfg i row (rsiBump cfg row st)).1
      else
        recomputeSol (stepExits cfg i row (stepEntry cfg i row (rsiBump cfg row st)).1)
  else st

/-- The loop `for i in range(1, len(df))`, processing the remaining rows with
their positional indices. -/
def runFrom (cfg : Config) : ℕ → List Row → BTState → BTState
  | _, [], st => st
  | i, row :: rest, st => runFrom cfg (i + 1) rest (processCandle cfg i row st)

/-- `run_backtest` on an indicator-augmented dataframe: candle 0 is never
processed (the range starts at 1). -/
def runBacktest (cfg : Config) (df : List Row) : BTState :=
  runFrom cfg 1 (df.drop 1) (initState cfg)

/-- The state after the first `n` iterations of the loop (so every
intermediate state of a run is `runUpTo cfg df n` for some `n`). -/
def runUpTo (cfg : Config) (df : List Row) (n : ℕ) : BTState :=
  runFrom cfg 1 ((df.drop 1).take n) (initState cfg)

/-- Gross profit: the sum of the strictly positive trade profits
(backtest.py line 361). -/
def grossProfit (th : List TradeEntry) : ℚ :=
  ((th.filter (fun t => decide (0 < t.profit_loss))).map (fun t => t.profit_loss)).sum

/-- Gross loss: the absolute value of the sum of the strictly negative trade
profits (backtest.py line 362). -/
def grossLoss (th : List TradeEntry) : ℚ :=
  |((th.filter (fun t => decide (t.profit_loss < 0))).map (fun t => t.profit_loss)).sum|

/-- The profit-factor result: a finite ratio or the infinite sentinel
(Python's `float('inf')`). -/
inductive PF where
  | finite : ℚ → PF
  | infinite : PF
deriving DecidableEq, Repr

/-- `profit_factor = gross_profit / gross_loss if gross_loss != 0 else inf`
(backtest.py line 363). -/
def profitFactor (th : List TradeEntry) : PF :=
  if grossLoss th ≠ 0 then PF.finite (grossProfit th / grossLoss th) else PF.infinite

/-- Spec-side restatement of the exit-priority rule of spec §4.2 step 2, for
comparison with `exitCheck`: stop-loss (low at or below the stop) before
take-profit (high at or above the take) before time exit (hold counter at or
above `max_hold_candles`). -/
def exitReason (cfg : Config) (row : Row) (pos : Position) : Option ExitType :=
  if row.low ≤ pos.stop_loss then some ExitType.StopLoss
  else if pos.take_profit ≤ row.high then some ExitType.TakeProfit
  else if cfg.max_hold_candles ≤ pos.position_candles then some ExitType.TimeExit
  else none

/-- `df['rsi'] < 1.0` for one row under pandas comparison semantics:
a NaN cell compares false. -/
def badRsi (r : Row) : Bool :=
  match r.rsi with
  | some x => decide (x < 1)
  | none => false

/-- `df['rsi'] >= 1.0` for one row under pandas comparison semantics:
a NaN cell compares false. -/
def keepRsi (r : Row) : Bool :=
  match r.rsi with
  | some x => decide (1 ≤ x)
  | none => false

/-- The RSI data-quality filter of `calculate_indicators` (backtest.py lines
107-114): when at least one row has RSI defined and below 1.0, the frame is
replaced by the rows satisfying `rsi >= 1.0` (which, under pandas NaN
semantics, also removes every row whose RSI is NaN); otherwise the frame is
left unchanged.  The subsequent `reset_index` re-indexes contiguously, which
the list model does implicitly. -/
def rsiFilter (rows : List Row) : List Row :=
  if rows.any badRsi then rows.filter keepRsi else rows

/-- At least one row with RSI defined and below 1.0. -/
def hasBadRsi (rows : List Row) : Prop :=
  ∃ r ∈ rows, ∃ x, r.rsi = some x ∧ x < 1

/-- The ledger invariant of spec §3: the asset balance is the sum of the
sizes of the open positions. -/
def solInvariant (st : BTState) : Prop :=
  st.sol_balance = (st.positions.map (fun p => p.size)).sum

/-! ### Helper lemmas -/

theorem roundHalfEven_ge_floor (x : ℚ) : ⌊x⌋ ≤ roundHalfEven x := by
  unfold roundHalfEven
  dsimp only
  split_ifs <;> omega

theorem round4_ge_of_grid_le (x : ℚ) (h : 1/2000 ≤ x) : 1/2000 ≤ round4 x := by
  have h1 : (5 : ℚ) ≤ x * 10000 := by linarith
  have h2 : (5 : ℤ) ≤ ⌊x * 10000⌋ := by
    rw [Int.le_floor]; exact_mod_cast h1
  have h3 : (5 : ℤ) ≤ roundHalfEven (x * 10000) :=
    le_trans h2 (roundHalfEven_ge_floor _)
  have h4 : (5 : ℚ) ≤ (roundHalfEven (x * 10000) : ℚ) := by exact_mod_cast h3
  unfold round4
  linarith

theorem tradeSize_ge_min_order (cfg : Config) (balance close : ℚ)
    (hmin : cfg.min_order_size = 1/2000) :
    cfg.min_order_size ≤ tradeSize cfg balance close := by
  unfold tradeSize
  rw [hmin]
  exact round4_ge_of_grid_le _ (by rw [← hmin]; exact le_max_right _ _)

theorem sum_neg_of_all_neg (l : List ℚ) (hne : l ≠ []) (h : ∀ x ∈ l, x < 0) :
    l.sum < 0 := by
  induction l with
  | nil => exact absurd rfl hne
  | cons x xs ih =>
    rcases List.eq_nil_or_concat xs with h0 | _
    · subst h0
      simpa using h x (by simp)
    · have hx : x < 0 := h x (by simp)
      have hxs : xs.sum ≤ 0 := by
        rcases eq_or_ne xs [] with h1 | h1
        · simp [h1]
        · exact le_of_lt (ih h1 (fun z hz => h z (by simp [hz])))
      simp only [List.sum_cons]
      linarith

theorem partialBump_frame (cfg : Config) (row : Row) (st : BTState) :
    (partialBump cfg row st).positions = st.positions ∧
    (partialBump cfg row st).balance = st.balance ∧
    (partialBump cfg row st).sol_balance = st.sol_balance ∧
    (partialBump cfg row st).trade_history = st.trade_history := by
  unfold partialBump
  split_ifs <;> simp

theorem rsiBump_frame (cfg : Config) (row : Row) (st : BTState) :
    (rsiBump cfg row st).positions = st.positions ∧
    (rsiBump cfg row st).balance = st.balance ∧
    (rsiBump cfg row st).sol_balance = st.sol_balance ∧
    (rsiBump cfg row st).trade_history = st.trade_history := by
  unfold rsiBump
  split_ifs <;> simp

theorem stepEntry_snd_true (cfg : Config) (i : ℕ) (row : Row) (st : BTState)
    (h : (stepEntry cfg i row st).2 = true) :
    (stepEntry cfg i row st).1 = partialBump cfg row st ∧
    entrySignal cfg row ∧
    entryRejected cfg (partialBump cfg row st).balance row.close ∧
    st.positions.length < cfg.max_positions := by
  unfold stepEntry at h ⊢
  split_ifs at h ⊢ with h1 h2 h3
  simp_all

theorem stepEntry_reject_frame (cfg : Config) (i : ℕ) (row : Row) (st : BTState)
    (h : (stepEntry cfg i row st).2 = true) :
    (stepEntry cfg i row st).1.positions = st.positions ∧
    (stepEntry cfg i row st).1.balance = st.balance ∧
    (stepEntry cfg i row st).1.sol_balance = st.sol_balance ∧
    (stepEntry cfg i row st).1.trade_history = st.trade_history := by
  rw [(stepEntry_snd_true cfg i row st h).1]
  exact partialBump_frame cfg row st

theorem openPosition_positions (cfg : Config) (i : ℕ) (row : Row) (st : BTState) :
    ∃ p, (openPosition cfg i row st).positions = st.positions ++ [p] :=
  ⟨_, rfl⟩

theorem stepEntry_positions (cfg : Config) (i : ℕ) (row : Row) (st : BTState) :
    (stepEntry cfg i row st).1.positions = st.positions ∨
      (st.positions.length < cfg.max_positions ∧
        ∃ p, (stepEntry cfg i row st).1.positions = st.positions ++ [p]) := by
  unfold stepEntry
  split_ifs with h1 h2 h3
  · exact Or.inl (partialBump_frame cfg row st).1
  · refine Or.inr ⟨h1, ?_⟩
    obtain ⟨p, hp⟩ := openPosition_positions cfg i row (partialBump cfg row st)
    exact ⟨p, by rw [hp, (partialBump_frame cfg row st).1]⟩
  · exact Or.inl (partialBump_frame cfg row st).1
  · exact Or.inl rfl

theorem stepEntry_len_le (cfg : Config) (i : ℕ) (row : Row) (st : BTState) :
    (stepEntry cfg i row st).1.positions.length ≤ st.positions.length + 1 ∧
    (stepEntry cfg i row st).1.positions.length ≤
      max st.positions.length cfg.max_positions := by
  rcases stepEntry_positions cfg i row st with h | ⟨hcap, p, hp⟩
  · rw [h]
    exact ⟨Nat.le_succ _, le_max_left _ _⟩
  · rw [hp]
    simp only [List.length_append, List.length_singleton]
    exact ⟨le_refl _, le_max_of_le_right hcap⟩

theorem closeTrade_positions (cfg : Config) (i : ℕ) (row : Row) (acc : BTState)
    (pos : Position) (ep : ℚ) (et : ExitType) :
    (closeTrade cfg i row acc pos ep et).positions = acc.positions := rfl

/-- The master lemma about the exit loop: kept positions are exactly the aged
positions on which no exit condition fires, exactly one trade record is
appended per position on which one fires, and every appended record carries
the closing index, the raw index distance as `candles_held`, and the hold
counter incremented exactly once this step. -/
theorem exitFold_spec (cfg : Config) (i : ℕ) (row : Row) :
    ∀ (l : List Position) (acc : BTState),
      (exitFold cfg i row l acc).positions
          = acc.positions ++
              (l.map incPos).filter (fun p => (exitCheck cfg row p).isNone)
      ∧ (exitFold cfg i row l acc).trade_history.length
          = acc.trade_history.length +
              ((l.map incPos).filter (fun p => (exitCheck cfg row p).isSome)).length
      ∧ ∀ t ∈ (exitFold cfg i row l acc).trade_history,
          t ∈ acc.trade_history ∨
            (t.close_index = i ∧ t.candles_held = i - t.entry_index ∧
              ∃ p ∈ l, t.entry_index = p.entry_index ∧
                t.position_candles_at_close = p.position_candles + 1) := by
  intro l
  induction l with
  | nil => intro acc; simp [exitFold]
  | cons pos rest ih =>
    intro acc
    obtain ⟨ih1, ih2, ih3⟩ := ih (exitStepOne cfg i row acc pos)
    have hstep : exitFold cfg i row (pos :: rest) acc
        = exitFold cfg i row rest (exitStepOne cfg i row acc pos) := rfl
    rw [hstep]
    cases hc : exitCheck cfg row (incPos pos) with
    | none =>
      have hacc : exitStepOne cfg i row acc pos
          = { acc with positions := acc.positions ++ [incPos pos] } := by
        unfold exitStepOne
        rw [hc]
      refine ⟨?_, ?_, ?_⟩
      · rw [ih1, hacc]
        simp [List.filter_cons, hc]
      · rw [ih2, hacc]
        simp [List.filter_cons, hc]
      · intro t ht
        rcases ih3 t ht with h | ⟨h1, h2, p, hp, h3⟩
        · rw [hacc] at h
          exact Or.inl h
        · exact Or.inr ⟨h1, h2, p, List.mem_cons_of_mem _ hp, h3⟩
    | some pe =>
      have hacc : exitStepOne cfg i row acc pos
          = closeTrade cfg i row acc (incPos pos) pe.1 pe.2 := by
        unfold exitStepOne
        rw [hc]
      refine ⟨?_, ?_, ?_⟩
      · rw [ih1, hacc, closeTrade_positions]
        simp [List.filter_cons, hc]
      · rw [ih2, hacc]
        unfold closeTrade
        simp [List.filter_cons, hc]
        omega
      · intro t ht
        rcases ih3 t ht with h | ⟨h1, h2, p, hp, h3⟩
        · rw [hacc] at h
          unfold closeTrade at h
          simp only [List.mem_append, List.mem_singleton] at h
          rcases h with h | h
          · exact Or.inl h
          · subst h
            refine Or.inr ⟨rfl, rfl, pos, List.mem_cons_self _ _, rfl, ?_⟩
            simp [mkTradeEntry, incPos]
        · exact Or.inr ⟨h1, h2, p, List.mem_cons_of_mem _ hp, h3⟩

theorem stepExits_positions (cfg : Config) (i : ℕ) (row : Row) (st : BTState) :
    (stepExits cfg i row st).positions
      = (st.positions.map incPos).filter (fun p => (exitCheck cfg row p).isNone) := by
  unfold stepExits
  have h := (exitFold_spec cfg i row st.positions { st with positions := [] }).1
  simpa using h

theorem stepExits_len_le (cfg : Config) (i : ℕ) (row : Row) (st : BTState) :
    (stepExits cfg i row st).positions.length ≤ st.positions.length := by
  rw [stepExits_positions]
  calc ((st.positions.map incPos).filter _).length
      ≤ (st.positions.map incPos).length := List.length_filter_le _ _
    _ = st.positions.length := List.length_map _ _

theorem recomputeSol_positions (st : BTState) :
    (recomputeSol st).positions = st.positions := by
  unfold recomputeSol
  split_ifs <;> rfl

theorem recomputeSol_inv (st : BTState) : solInvariant (recomputeSol st) := by
  unfold solInvariant recomputeSol
  split_ifs with h
  · simp_all [List.isEmpty_iff]
  · simp

theorem processCandle_inv (cfg : Config) (i : ℕ) (row : Row) (st : BTState)
    (h : solInvariant st) : solInvariant (processCandle cfg i row st) := by
  unfold processCandle
  split_ifs with h1 h2 h3
  · exact h
  · have hf := stepEntry_reject_frame cfg i row (rsiBump cfg row st) h3
    have hb := rsiBump_frame cfg row st
    unfold solInvariant
    rw [hf.1, hf.2.2.1, hb.1, hb.2.2.1]
    exact h
  · exact recomputeSol_inv _
  · exact h

theorem processCandle_len (cfg : Config) (i : ℕ) (row : Row) (st : BTState) :
    (processCandle cfg i row st).positions.length ≤ st.positions.length + 1 ∧
    (processCandle cfg i row st).positions.length ≤
      max st.positions.length cfg.max_positions := by
  unfold processCandle
  split_ifs with h1 h2 h3
  · exact ⟨Nat.le_succ _, le_max_left _ _⟩
  · have hf := stepEntry_reject_frame cfg i row (rsiBump cfg row st) h3
    have hb := rsiBump_frame cfg row st
    rw [hf.1, hb.1]
    exact ⟨Nat.le_succ _, le_max_left _ _⟩
  · rw [recomputeSol_positions]
    have hle := stepExits_len_le cfg i row (stepEntry cfg i row (rsiBump cfg row st)).1
    have hl := stepEntry_len_le cfg i row (rsiBump cfg row st)
    have hb := (rsiBump_frame cfg row st).1
    rw [hb] at hl
    exact ⟨le_trans hle hl.1, le_trans hle hl.2⟩
  · exact ⟨Nat.le_succ _, le_max_left _ _⟩

theorem runFrom_inv (cfg : Config) :
    ∀ (l : List Row) (i : ℕ) (st : BTState),
      solInvariant st → solInvariant (runFrom cfg i l st) := by
  intro l
  induction l with
  | nil => intro i st h; exact h
  | cons row rest ih =>
    intro i st h
    exact ih (i + 1) _ (processCandle_inv cfg i row st h)

theorem runFrom_len (cfg : Config) :
    ∀ (l : List Row) (i : ℕ) (st : BTState),
      st.positions.length ≤ cfg.max_positions →
        (runFrom cfg i l st).positions.length ≤ cfg.max_positions := by
  intro l
  induction l with
  | nil => intro i st h; exact h
  | cons row rest ih =>
    intro i st h
    refine ih (i + 1) _ ?_
    have := (processCandle_len cfg i row st).2
    omega

theorem stepExits_trades_len (cfg : Config) (i : ℕ) (row : Row) (st : BTState) :
    (stepExits cfg i row st).trade_history.length
      = st.trade_history.length +
          ((st.positions.map incPos).filter (fun p => (exitCheck cfg row p).isSome)).length := by
  unfold stepExits
  have h := (exitFold_spec cfg i row st.positions { st with positions := [] }).2.1
  simpa using h

theorem exitCheck_exitReason (cfg : Config) (row : Row) (pos : Position) :
    (exitCheck cfg row pos).map (fun pe => pe.2) = exitReason cfg row pos := by
  unfold exitCheck exitReason
  split_ifs <;> rfl

theorem badRsi_iff (r : Row) : badRsi r = true ↔ ∃ x, r.rsi = some x ∧ x < 1 := by
  unfold badRsi
  cases h : r.rsi <;> simp [h]

theorem keepRsi_iff (r : Row) : keepRsi r = true ↔ ∃ x, r.rsi = some x ∧ 1 ≤ x := by
  unfold keepRsi
  cases h : r.rsi <;> simp [h]

theorem any_badRsi_iff (rows : List Row) : rows.any badRsi = true ↔ hasBadRsi rows := by
  unfold hasBadRsi
  simp [List.any_eq_true, badRsi_iff]

/-! ### Concrete inputs used by counterexamples and witnesses -/

/-- An eligible candle on which the three entry conditions hold, the entry is
accepted (close 100, ATR 1, balance 10), and no exit condition can fire on
the same candle (low above the stop, high below the take). -/
def rowC7 : Row where
  timestamp := 100
  open_ := 100
  high := 201/2
  low := 999/10
  close := 100
  volume := 10
  rsi := some 5
  macd := some 2
  signal := some 1
  hist := some 0
  atr := some 1
  volume_sma := some 5

/-- A warm-up candle: all indicator cells NaN (row 0 of a fresh frame). -/
def row0 : Row where
  timestamp := 0
  open_ := 100
  high := 100
  low := 100
  close := 100
  volume := 10
  rsi := none
  macd := none
  signal := none
  hist := none
  atr := none
  volume_sma := none

/-- An eligible candle on which the entry conditions hold with ATR 4 (so the
stop lands at 99) and whose low (98) already reaches that stop, closing the
just-opened position on its entry candle. -/
def rowC5 : Row where
  timestamp := 300
  open_ := 100
  high := 201/2
  low := 98
  close := 100
  volume := 10
  rsi := some 5
  macd := some 2
  signal := some 1
  hist := some 0
  atr := some 4
  volume_sma := some 5

/-- An eligible candle with an extreme close price: the three entry
conditions hold, but the floored-and-rounded size (0.0005) requires 500 USDT
of capital, far above any small balance, so the entry is rejected.  Its low
(999000) is at or below the stop of `posC1`. -/
def rowC1 : Row where
  timestamp := 500
  open_ := 1000000
  high := 1000001
  low := 999000
  close := 1000000
  volume := 10
  rsi := some 5
  macd := some 2
  signal := some 1
  hist := some 0
  atr := some 1
  volume_sma := some 5

/-- An open position whose stop (999500) is above the low of `rowC1`, held
for 2 steps so far. -/
def posC1 : Position where
  entry_price := 999600
  size := 1/1000
  stop_loss := 999500
  take_profit := 1000500
  entry_index := 1
  entry_time := 100
  macd_at_entry := 2
  signal_at_entry := 1
  hist_at_entry := 0
  atr_at_entry := 1
  position_candles := 2

/-- A mid-run state holding `posC1`, with a balance (9) far below the capital
the rejected entry of `rowC1` would require. -/
def stC1 : BTState where
  balance := 9
  positions := [posC1]
  trade_history := []
  usdt_balance := 9
  sol_balance := 1/1000
  trades := 0
  wins := 0
  rsi_below_threshold_count := 0
  partialCount := 0

/-- A candle whose range reaches both the stop (low 90 ≤ 95) and the take
(high 200 ≥ 150) of `posC4` within the same candle. -/
def rowC4 : Row where
  timestamp := 400
  open_ := 100
  high := 200
  low := 90
  close := 100
  volume := 10
  rsi := some 50
  macd := some 2
  signal := some 1
  hist := some 0
  atr := some 1
  volume_sma := some 5

/-- A position whose stop (95) and take (150) are both inside the range of
`rowC4`. -/
def posC4 : Position where
  entry_price := 100
  size := 1/50
  stop_loss := 95
  take_profit := 150
  entry_index := 1
  entry_time := 100
  macd_at_entry := 2
  signal_at_entry := 1
  hist_at_entry := 0
  atr_at_entry := 1
  position_candles := 3

/-- A candle whose RSI cell is NaN (a warm-up candle). -/
def rowN : Row where
  timestamp := 0
  open_ := 100
  high := 100
  low := 100
  close := 100
  volume := 10
  rsi := none
  macd := some 2
  signal := some 1
  hist := some 0
  atr := some 1
  volume_sma := some 5

/-- A candle whose RSI is defined and below 1.0 (a "corrupted" candle). -/
def rowHalf : Row where
  timestamp := 60
  open_ := 100
  high := 100
  low := 100
  close := 100
  volume := 10
  rsi := some (1/2)
  macd := some 2
  signal := some 1
  hist := some 0
  atr := some 1
  volume_sma := some 5

/-- An open position (stop 99, take 120, counter 0) that the low of `rowC5`
stops out. -/
def posW5 : Position where
  entry_price := 100
  size := 1/50
  stop_loss := 99
  take_profit := 120
  entry_index := 1
  entry_time := 300
  macd_at_entry := 2
  signal_at_entry := 1
  hist_at_entry := 0
  atr_at_entry := 4
  position_candles := 0

/-- A state holding `posW5` just before exit evaluation. -/
def stW5 : BTState where
  balance := 8
  positions := [posW5]
  trade_history := []
  usdt_balance := 8
  sol_balance := 1/50
  trades := 0
  wins := 0
  rsi_below_threshold_count := 1
  partialCount := 1

/-- The trade record produced when `rowC5` stops out `posW5`. -/
def teW : TradeEntry := ((stepExits defaultParams 1 rowC5 stW5).trade_history).headI

/-- Two trade records with fixed profits, one winning and one losing, for
the profit-factor witnesses. -/
def teLoss : TradeEntry where
  timestamp := 300
  entry_price := 100
  exit_price := 99
  size := 1/50
  profit_loss := -1
  win_loss := false
  usdt_balance := 9
  sol_balance := 0
  exit_type := ExitType.StopLoss
  sl_distance := 1
  tp_distance := 20
  macd_at_entry := 2
  signal_at_entry := 1
  hist_at_entry := 0
  atr_at_entry := 4
  candles_held := 2
  entry_index := 1
  close_index := 3
  position_candles_at_close := 3

/-! ### Claim theorems -/

/-- C2: at the end of every simulated step (i.e. after the first `n` loop
iterations, for every `n`), the asset balance `sol_balance` equals the sum of
`size` over the currently open positions — in particular it equals 0 when no
position is open, since the empty sum is 0; the invariant is re-established
by the end-of-step recomputation rather than drifting. -/
theorem c2_sol_balance_invariant (cfg : Config) (df : List Row) (n : ℕ) :
    (runUpTo cfg df n).sol_balance
      = ((runUpTo cfg df n).positions.map (fun p => p.size)).sum := by
  have h0 : solInvariant (initState cfg) := by
    simp [solInvariant, initState]
  exact runFrom_inv cfg ((df.drop 1).take n) 1 (initState cfg) h0

/-- C3: at every step of every run the number of open positions stays at or
below `max_positions`; a single step adds at most one position; and a step
starting at or above the cap adds none (entry evaluation is attempted only
strictly below the cap), so the count never exceeds
`max st.positions.length cfg.max_positions`. -/
theorem c3_max_positions_cap (cfg : Config) (df : List Row) (n i : ℕ)
    (row : Row) (st : BTState) :
    (runUpTo cfg df n).positions.length ≤ cfg.max_positions ∧
    (processCandle cfg i row st).positions.length ≤ st.positions.length + 1 ∧
    (processCandle cfg i row st).positions.length ≤
      max st.positions.length cfg.max_positions := by
  refine ⟨?_, (processCandle_len cfg i row st).1, (processCandle_len cfg i row st).2⟩
  exact runFrom_len cfg ((df.drop 1).take n) 1 (initState cfg) (Nat.zero_le _)

/-- C7: with cash balance 10, risk_per_trade 0.05, atr_sl_multiplier 0.25,
close 100 and ATR 1: risk_amount = 0.5, raw size = (0.5/0.25)/100 = 0.02,
rounded size = 0.0200, required capital = 2.00 which does not trigger
rejection, and the opened position carries stop 100 − 0.25 = 99.75 and take
100 + 5.0 = 105. -/
theorem c7_sizing_example :
    riskAmount defaultParams 10 = 1/2 ∧
    rawSize defaultParams 10 100 = 1/50 ∧
    tradeSize defaultParams 10 100 = 1/50 ∧
    positionSizeUsdt defaultParams 10 100 = 2 ∧
    ¬ entryRejected defaultParams 10 100 ∧
    (processCandle defaultParams 1 rowC7 (initState defaultParams)).positions.map
        (fun p => (p.size, p.stop_loss, p.take_profit))
      = [(1/50, 399/4, 105)] := by
  refine ⟨?_, ?_, ?_, ?_, ?_, ?_⟩
  · norm_num [riskAmount, defaultParams]
  · norm_num [rawSize, riskAmount, defaultParams]
  · norm_num [tradeSize, rawSize, riskAmount, round4, roundHalfEven, defaultParams]
  · norm_num [positionSizeUsdt, tradeSize, rawSize, riskAmount, round4, roundHalfEven,
      defaultParams]
  · norm_num [entryRejected, positionSizeUsdt, tradeSize, rawSize, riskAmount, round4,
      roundHalfEven, defaultParams]
  · norm_num [processCandle, indicatorsOk, rowC7, defaultParams, rsiBump, stepEntry, entrySignal,
      partialBump, entryRejected, positionSizeUsdt, tradeSize, rawSize, riskAmount, round4,
      roundHalfEven, openPosition, initState, stepExits, exitFold, exitStepOne, exitCheck, incPos,
      recomputeSol]

/-- C9: the engine is deterministic — its observable output (trade log and
final balance) is a function of the candle sequence and the configuration
alone; running it twice on equal inputs yields equal outputs (in this pure
embedding all run state, including the partial-condition counter, lives in
`BTState`, so there is no hidden state between runs). -/
theorem c9_determinism (cfg1 cfg2 : Config) (df1 df2 : List Row)
    (hc : cfg1 = cfg2) (hd : df1 = df2) :
    (runBacktest cfg1 df1).trade_history = (runBacktest cfg2 df2).trade_history ∧
    (runBacktest cfg1 df1).balance = (runBacktest cfg2 df2).balance := by
  subst hc
  subst hd
  exact ⟨rfl, rfl⟩

/-- Witness for C9 at a concrete configuration and candle list. -/
theorem c9_determinism_witness :
    (runBacktest defaultParams [row0, rowC5]).trade_history
        = (runBacktest defaultParams [row0, rowC5]).trade_history ∧
    (runBacktest defaultParams [row0, rowC5]).balance
        = (runBacktest defaultParams [row0, rowC5]).balance :=
  c9_determinism defaultParams defaultParams [row0, rowC5] [row0, rowC5] rfl rfl

/-- C1 counterexample: on the eligible candle `rowC1` (all six indicators
defined, ATR at the floor or above) the three entry conditions hold but the
entry is rejected for insufficient balance; the rejected-entry `continue`
then skips exit evaluation entirely, so the open position `posC1` keeps its
hold counter at 2 (it is not incremented) and no exit is recorded even
though the candle's low is at or below the position's stop price. -/
theorem c1_counterexample :
    indicatorsOk rowC1 = true ∧
    defaultParams.min_atr ≤ rowC1.atr.getD 0 ∧
    entrySignal defaultParams rowC1 ∧
    (stepEntry defaultParams 3 rowC1 (rsiBump defaultParams rowC1 stC1)).2 = true ∧
    rowC1.low ≤ posC1.stop_loss ∧
    (processCandle defaultParams 3 rowC1 stC1).positions.map (fun p => p.position_candles)
      = [2] ∧
    (processCandle defaultParams 3 rowC1 stC1).trade_history = [] := by
  refine ⟨rfl, by norm_num [defaultParams, rowC1],
    by norm_num [entrySignal, defaultParams, rowC1], ?_,
    by norm_num [rowC1, posC1], ?_, ?_⟩
  · norm_num [stepEntry, entrySignal, partialBump, entryRejected, positionSizeUsdt, tradeSize,
      rawSize, riskAmount, round4, roundHalfEven, rsiBump, rowC1, stC1, posC1, defaultParams]
  · norm_num [processCandle, indicatorsOk, rowC1, stC1, posC1, defaultParams, rsiBump, stepEntry,
      entrySignal, partialBump, entryRejected, positionSizeUsdt, tradeSize, rawSize, riskAmount,
      round4, roundHalfEven]
  · norm_num [processCandle, indicatorsOk, rowC1, stC1, posC1, defaultParams, rsiBump, stepEntry,
      entrySignal, partialBump, entryRejected, positionSizeUsdt, tradeSize, rawSize, riskAmount,
      round4, roundHalfEven]

/-- C1 (amended): on every eligible candle, exit evaluation runs for every
currently open position — each is aged by one and either kept (no exit
condition fires) or closed with one trade record — regardless of whether no
entry signal fired or an entry was accepted; but when an entry signal fired
and was rejected (the `continue` at backtest.py line 229), the whole
remainder of the step, exit evaluation included, is skipped and the open
positions are left untouched. -/
theorem c1_exit_evaluation_amended (cfg : Config) (i : ℕ) (row : Row) (st : BTState)
    (hok : indicatorsOk row = true)
    (hatr : ¬ row.atr.getD 0 < cfg.min_atr) :
    ((stepEntry cfg i row (rsiBump cfg row st)).2 = false →
        processCandle cfg i row st
          = recomputeSol (stepExits cfg i row (stepEntry cfg i row (rsiBump cfg row st)).1)) ∧
    ((stepEntry cfg i row (rsiBump cfg row st)).2 = true →
        processCandle cfg i row st = (stepEntry cfg i row (rsiBump cfg row st)).1 ∧
          (processCandle cfg i row st).positions = st.positions) ∧
    (∀ s : BTState,
        (stepExits cfg i row s).positions
          = (s.positions.map incPos).filter (fun p => (exitCheck cfg row p).isNone)) ∧
    (∀ s : BTState,
        (stepExits cfg i row s).trade_history.length
          = s.trade_history.length
            + ((s.positions.map incPos).filter (fun p => (exitCheck cfg row p).isSome)).length) := by
  have hpc : processCandle cfg i row st
      = (if (stepEntry cfg i row (rsiBump cfg row st)).2 then
          (stepEntry cfg i row (rsiBump cfg row st)).1
        else
          recomputeSol (stepExits cfg i row (stepEntry cfg i row (rsiBump cfg row st)).1)) := by
    unfold processCandle
    rw [if_pos hok, if_neg hatr]
  refine ⟨?_, ?_, fun s => stepExits_positions cfg i row s,
    fun s => stepExits_trades_len cfg i row s⟩
  · intro h
    rw [hpc]
    simp [h]
  · intro h
    constructor
    · rw [hpc]
      simp [h]
    · rw [hpc]
      simp only [h, if_true]
      rw [(stepEntry_reject_frame cfg i row (rsiBump cfg row st) h).1,
        (rsiBump_frame cfg row st).1]

/-- Witness for C1 (amended) at a concrete eligible candle and state: every
kept position is the aged image of an open position on which no exit fires. -/
theorem c1_exit_evaluation_amended_witness :
    (stepExits defaultParams 1 rowC7 stC1).positions
      = (stC1.positions.map incPos).filter
          (fun p => (exitCheck defaultParams rowC7 p).isNone) :=
  (c1_exit_evaluation_amended defaultParams 1 rowC7 stC1 rfl
    (by norm_num [rowC7, defaultParams])).2.2.1 stC1

/-- C4: exit reasons are selected in strict priority order — stop-loss
(candle low at or below the stop) before take-profit (candle high at or
above the take) before time exit (hold counter at or above
`max_hold_candles`) — so when both the stop and the take are reachable
within the same candle's range the stop-loss exit is the one recorded; in
general the exit decision equals the spec's priority chooser `exitReason`,
and per step each position either produces no trade record (no condition
fires) or exactly one, whose recorded exit type is that chosen reason. -/
theorem c4_exit_priority (cfg : Config) (row : Row) (pos : Position)
    (hsl : row.low ≤ pos.stop_loss) (htp : pos.take_profit ≤ row.high) :
    (exitCheck cfg row pos).map (fun pe => pe.2) = some ExitType.StopLoss ∧
    (∀ (cfg2 : Config) (row2 : Row) (pos2 : Position),
        (exitCheck cfg2 row2 pos2).map (fun pe => pe.2) = exitReason cfg2 row2 pos2) ∧
    (∀ (cfg2 : Config) (j : ℕ) (row2 : Row) (acc : BTState) (pos2 : Position),
        ((exitStepOne cfg2 j row2 acc pos2).trade_history = acc.trade_history ∧
            exitReason cfg2 row2 (incPos pos2) = none) ∨
          (∃ te : TradeEntry,
            (exitStepOne cfg2 j row2 acc pos2).trade_history = acc.trade_history ++ [te] ∧
              some te.exit_type = exitReason cfg2 row2 (incPos pos2))) := by
  refine ⟨?_, fun cfg2 row2 pos2 => exitCheck_exitReason cfg2 row2 pos2, ?_⟩
  · unfold exitCheck
    rw [if_pos hsl]
    rfl
  · intro cfg2 j row2 acc pos2
    cases hc : exitCheck cfg2 row2 (incPos pos2) with
    | none =>
      left
      constructor
      · unfold exitStepOne
        rw [hc]
      · rw [← exitCheck_exitReason, hc]
        rfl
    | some pe =>
      right
      refine ⟨mkTradeEntry cfg2 j row2 acc (incPos pos2) pe.1 pe.2, ?_, ?_⟩
      · unfold exitStepOne
        rw [hc]
        rfl
      · rw [← exitCheck_exitReason, hc]
        rfl

/-- Witness for C4 at a candle whose range covers both the stop and the take
of the position: the stop-loss exit is selected. -/
theorem c4_exit_priority_witness :
    (exitCheck defaultParams rowC4 posC4).map (fun pe => pe.2) = some ExitType.StopLoss :=
  (c4_exit_priority defaultParams rowC4 posC4 (by norm_num [rowC4, posC4])
    (by norm_num [rowC4, posC4])).1

/-- C5 counterexample: in the two-candle run `[row0, rowC5]` a position is
opened and stopped out on the same simulated step, so its hold counter (which
was incremented exactly once, to 1) differs from the `candles_held` value
written into its trade record, which is the raw index distance
`i - entry_index = 0`. -/
theorem c5_counterexample :
    ((runBacktest defaultParams [row0, rowC5]).trade_history.map
      (fun t => (t.candles_held, t.position_candles_at_close))) = [(0, 1)] := by
  norm_num [runBacktest, runFrom, processCandle, indicatorsOk, row0, rowC5, defaultParams,
    rsiBump, stepEntry, entrySignal, partialBump, entryRejected, positionSizeUsdt, tradeSize,
    rawSize, riskAmount, round4, roundHalfEven, openPosition, initState, stepExits, exitFold,
    exitStepOne, exitCheck, incPos, recomputeSol, closeTrade, mkTradeEntry]

/-- C5 (amended): for every trade closed on step `i`, the recorded
`candles_held` equals the raw index distance between the closing candle and
the position's entry candle (`i - entry_index`), not the per-step hold
counter; the counter itself is incremented exactly once on the closing step
(its recorded final value is the pre-step value plus one) and is used only
for the time-exit condition. -/
theorem c5_candles_held_amended (cfg : Config) (i : ℕ) (row : Row) (st : BTState) :
    ∀ t ∈ (stepExits cfg i row st).trade_history,
      t ∈ st.trade_history ∨
        (t.close_index = i ∧ t.candles_held = i - t.entry_index ∧
          ∃ p ∈ st.positions, t.entry_index = p.entry_index ∧
            t.position_candles_at_close = p.position_candles + 1) := by
  intro t ht
  unfold stepExits at ht
  have h := (exitFold_spec cfg i row st.positions { st with positions := [] }).2.2 t ht
  simpa using h

/-- Witness for C5 (amended) at the concrete stop-out of `posW5` by `rowC5`. -/
theorem c5_candles_held_amended_witness :
    teW ∈ stW5.trade_history ∨
      (teW.close_index = 1 ∧ teW.candles_held = 1 - teW.entry_index ∧
        ∃ p ∈ stW5.positions, teW.entry_index = p.entry_index ∧
          teW.position_candles_at_close = p.position_candles + 1) :=
  c5_candles_held_amended defaultParams 1 rowC5 stW5 teW (by
    norm_num [teW, stepExits, exitFold, exitStepOne, exitCheck, incPos, closeTrade, mkTradeEntry,
      stW5, posW5, rowC5, defaultParams, List.headI])

/-- C6 counterexample: a sequence holding one warm-up candle (RSI NaN) and
one corrupted candle (RSI = 0.5 < 1.0): because at least one defined RSI is
below 1.0, the filter `df[df['rsi'] >= 1.0]` drops the NaN row as well
(pandas NaN comparisons are false), leaving the empty sequence — the
undefined-RSI candle is not retained as the claim states. -/
theorem c6_rsi_filter_counterexample :
    rsiFilter [rowN, rowHalf] = [] ∧ rowN.rsi = none := by
  refine ⟨?_, rfl⟩
  norm_num [rsiFilter, badRsi, keepRsi, rowN, rowHalf, List.any, List.filter]

/-- C6 (amended): the post-processing filter leaves the sequence unchanged
when no candle has RSI defined and below 1.0 (in particular warm-up candles
are then retained); but when at least one such corrupted candle exists, the
filter keeps exactly the candles whose RSI is defined and at least 1.0,
dropping the corrupted candles and every undefined-RSI (warm-up) candle
alike; the surviving sequence is re-indexed contiguously (implicit in the
list model). -/
theorem c6_rsi_filter_amended (rows : List Row) (r : Row) :
    r ∈ rsiFilter rows ↔
      r ∈ rows ∧ (hasBadRsi rows → ∃ x, r.rsi = some x ∧ 1 ≤ x) := by
  unfold rsiFilter
  by_cases hb : rows.any badRsi = true
  · rw [if_pos hb]
    have hbad : hasBadRsi rows := (any_badRsi_iff rows).1 hb
    rw [List.mem_filter]
    constructor
    · rintro ⟨h1, h2⟩
      exact ⟨h1, fun _ => (keepRsi_iff r).1 h2⟩
    · rintro ⟨h1, h2⟩
      exact ⟨h1, (keepRsi_iff r).2 (h2 hbad)⟩
  · rw [if_neg hb]
    have hnb : ¬ hasBadRsi rows := fun h => hb ((any_badRsi_iff rows).2 h)
    constructor
    · intro h
      exact ⟨h, fun hbad => absurd hbad hnb⟩
    · rintro ⟨h1, _⟩
      exact h1

/-- C8: the profit factor equals gross profit (sum of strictly positive
trade profits) divided by the absolute value of gross loss (sum of strictly
negative trade profits) whenever a losing trade exists, and is the infinite
sentinel — not an exception — whenever the trade log contains no losing
trade. -/
theorem c8_profit_factor (th : List TradeEntry) :
    ((∃ t ∈ th, t.profit_loss < 0) →
        profitFactor th = PF.finite (grossProfit th / grossLoss th)) ∧
    ((∀ t ∈ th, 0 ≤ t.profit_loss) → profitFactor th = PF.infinite) := by
  constructor
  · rintro ⟨t, ht, hneg⟩
    have hmemf : t ∈ th.filter (fun u => decide (u.profit_loss < 0)) :=
      List.mem_filter.2 ⟨ht, by simpa using hneg⟩
    have hmem : t.profit_loss
        ∈ (th.filter (fun u => decide (u.profit_loss < 0))).map (fun u => u.profit_loss) :=
      List.mem_map_of_mem _ hmemf
    have hall : ∀ x ∈ (th.filter (fun u => decide (u.profit_loss < 0))).map
        (fun u => u.profit_loss), x < 0 := by
      intro x hx
      simp only [List.mem_map, List.mem_filter] at hx
      obtain ⟨u, ⟨hu1, hu2⟩, rfl⟩ := hx
      simpa using hu2
    have hsum := sum_neg_of_all_neg _ (List.ne_nil_of_mem hmem) hall
    have hgl : grossLoss th ≠ 0 := by
      unfold grossLoss
      exact abs_ne_zero.2 (ne_of_lt hsum)
    unfold profitFactor
    rw [if_pos hgl]
  · intro h
    have hfil : th.filter (fun u => decide (u.profit_loss < 0)) = [] := by
      rw [List.filter_eq_nil_iff]
      intro a ha
      simpa using not_lt.2 (h a ha)
    have hgl : grossLoss th = 0 := by
      unfold grossLoss
      rw [hfil]
      simp
    unfold profitFactor
    rw [hgl]
    simp

/-- C10: with the engine's constants (min_order_size = 0.0005, an exact
multiple of the 4-decimal rounding grid), the second rejection condition
(rounded size times close below min_order_size times close) can never hold
on a candle with positive close price, because the size is floored at
min_order_size before rounding and rounding cannot cross below a grid
point; hence an entry signal is rejected exactly when the required capital
strictly exceeds the cash balance, and a rejected entry leaves positions,
balances and the trade log unchanged. -/
theorem c10_rejection_iff (balance close : ℚ) (hclose : 0 < close) :
    ¬ (tradeSize defaultParams balance close * close
        < defaultParams.min_order_size * close) ∧
    (entryRejected defaultParams balance close ↔
      balance < positionSizeUsdt defaultParams balance close) ∧
    (∀ (j : ℕ) (row : Row) (st : BTState),
        (stepEntry defaultParams j row st).2 = true →
          (stepEntry defaultParams j row st).1.positions = st.positions ∧
          (stepEntry defaultParams j row st).1.balance = st.balance ∧
          (stepEntry defaultParams j row st).1.sol_balance = st.sol_balance ∧
          (stepEntry defaultParams j row st).1.trade_history = st.trade_history) := by
  have hts : defaultParams.min_order_size ≤ tradeSize defaultParams balance close :=
    tradeSize_ge_min_order defaultParams balance close rfl
  have h1 : ¬ (tradeSize defaultParams balance close * close
      < defaultParams.min_order_size * close) :=
    not_lt.2 (mul_le_mul_of_nonneg_right hts hclose.le)
  refine ⟨h1, ?_, fun j row st h => stepEntry_reject_frame defaultParams j row st h⟩
  unfold entryRejected
  constructor
  · rintro (h | h)
    · exact h
    · exact absurd h h1
  · intro h
    exact Or.inl h

/-- Witness for C10 at balance 10 and close 100. -/
theorem c10_rejection_iff_witness :
    entryRejected defaultParams 10 100 ↔
      (10 : ℚ) < positionSizeUsdt defaultParams 10 100 :=
  (c10_rejection_iff 10 100 (by norm_num)).2.1

end DeanBot
